import Mathlib

/-!
Shallow embedding of the lifecycle orchestration in
src/async/backend/postgres/trait.rs (PostgresBackendWrapper: init, create,
clean, drop) of the db-pool repository.

Modelling choices:
* Database ids (Uuid), connections and pools are modelled as natural numbers;
  only their identity matters to the orchestration logic.
* The PostgresBackend trait primitives are modelled by an oracle structure Env
  whose fields prescribe the outcome of every primitive call.  Each fallible
  primitive returns an Except with its own payload, wrapped at use sites into
  the four-kind BackendError, which mirrors the map_err(Into::into) calls of
  the Rust code.  get_default_connection takes a call index so that distinct
  call sites can receive distinct outcomes.
* The retained-connection map (put_database_connection /
  get_database_connection) is the only mutable state the orchestrator touches;
  it is an association list with HashMap-style insert/remove semantics.
  get_database_connection on a missing id is a contract violation in the Rust
  code (the trait signature returns a bare connection, with no error channel);
  this is modelled by the Outcome.fatal result, distinct from every
  recoverable BackendError.
* Each operation additionally records a trace of events (statements executed,
  connections established, the entity-creation hook being invoked, map
  operations), so that theorems can speak about which effects happened and in
  which order.
* init runs its bulk-drop fan-out through futures::future::try_join_all.  Each
  per-name drop future is modelled separately (sweepDropFuture), since the
  futures run concurrently and independently; the join result is the first
  error in the list, if any (tryJoinAll).
-/

namespace DbPool

/-- Database ids: stand-in for Uuid. -/
abbrev Uuid := Nat

/-- Raw database connections (Self.Connection in the trait). -/
abbrev Conn := Nat

/-- Connection pools (Self.Pool in the trait). -/
abbrev Pool := Nat

/-- The four-kind discriminated error union
(src/async/backend/error.rs, BackendError): build, pool, connection
and query errors, payloads abstracted to naturals. -/
inductive BackendError where
  | build (e : Nat)
  | pool (e : Nat)
  | connection (e : Nat)
  | query (e : Nat)
deriving DecidableEq, Repr

/-- Statements produced by the statement generator
(common/statement/postgres); modelled as an inductive over the names they
mention rather than as SQL text. -/
inductive Stmt where
  | createDatabase (dbName : String)
  | createRole (roleName : String)
  | grantDatabaseOwnership (dbName : String) (roleName : String)
  | grantRestrictedTablePrivileges (roleName : String)
  | grantRestrictedSequencePrivileges (roleName : String)
  | dropDatabase (dbName : String)
  | dropRole (roleName : String)
  | truncateTable (tableName : String)
deriving DecidableEq, Repr

/-- Observable events of one orchestrator operation, in execution order. -/
inductive Event where
  | getDefaultConn (idx : Nat)
  | exec (stmt : Stmt) (c : Conn)
  | batch (stmts : List Stmt) (c : Conn)
  | establishPriv (id : Uuid)
  | establishRestr (id : Uuid)
  | hook (c : Conn)
  | listDatabases (c : Conn)
  | listTables (c : Conn)
  | take (id : Uuid)
  | put (id : Uuid) (c : Conn)
  | buildPool (id : Uuid)
deriving DecidableEq, Repr

/-- Oracle for the PostgresBackend trait primitives: each field prescribes
the outcome of the corresponding trait call. -/
structure Env where
  dropPreviousDatabases : Bool
  getDefaultConnection : Nat → Except Nat Conn
  executeQuery : Stmt → Conn → Except Nat Unit
  batchExecuteQuery : List Stmt → Conn → Except Nat Unit
  establishPrivilegedDatabaseConnection : Uuid → Except Nat Conn
  establishRestrictedDatabaseConnection : Uuid → Except Nat Conn
  getPreviousDatabaseNames : Conn → Except Nat (List String)
  createEntities : Conn → Option Conn
  createConnectionPool : Uuid → Except Nat Pool
  getTableNames : Conn → Except Nat (List String)

/-- util::get_db_name: the database (and role) name derived from the id by a
fixed prefix plus an encoding of the id. -/
def getDbName (id : Uuid) : String :=
  "db_pool_" ++ toString id

/-- Lookup in the retained-connection map. -/
def lookupRetained : List (Uuid × Conn) → Uuid → Option Conn
  | [], _ => none
  | (k, c) :: rest, id => if k = id then some c else lookupRetained rest id

/-- Removal from the retained-connection map (HashMap remove: the key is gone
afterwards). -/
def removeRetained : List (Uuid × Conn) → Uuid → List (Uuid × Conn)
  | [], _ => []
  | (k, c) :: rest, id =>
    if k = id then removeRetained rest id else (k, c) :: removeRetained rest id

/-- The orchestrator state: the retained privileged connections, keyed by
database id. -/
structure BState where
  retained : List (Uuid × Conn)
deriving DecidableEq, Repr

/-- Result of an orchestrator operation: success, one of the four recoverable
error kinds, or a contract violation (get_database_connection on a missing
id, which has no error channel in the trait signature). -/
inductive Outcome (α : Type) where
  | ok (a : α)
  | err (e : BackendError)
  | fatal
deriving DecidableEq, Repr

/-- The effectful computation of one orchestrator operation: state in, result
plus state plus event trace out. -/
structure M (α : Type) where
  run : BState → Outcome α × BState × List Event

/-- Prepend the events of an earlier step to the outcome of a later one. -/
def withTrace (t1 : List Event) (x : Outcome α × BState × List Event) :
    Outcome α × BState × List Event :=
  (x.1, x.2.1, t1 ++ x.2.2)

theorem withTrace_mk (t1 : List Event) (r : Outcome α) (s : BState)
    (t2 : List Event) : withTrace t1 (r, s, t2) = (r, s, t1 ++ t2) := rfl

instance instMonadM : Monad M where
  pure a := ⟨fun s => (.ok a, s, [])⟩
  bind m f := ⟨fun s =>
    match m.run s with
    | (.ok a, s1, t1) => withTrace t1 ((f a).run s1)
    | (.err e, s1, t1) => (.err e, s1, t1)
    | (.fatal, s1, t1) => (.fatal, s1, t1)⟩

/-- self.get_default_connection().await.map_err(Into::into): a PoolError
wrapped into the union. -/
def getDefaultConnectionM (env : Env) (idx : Nat) : M Conn :=
  ⟨fun s =>
    match env.getDefaultConnection idx with
    | .error e => (.err (.pool e), s, [.getDefaultConn idx])
    | .ok c => (.ok c, s, [.getDefaultConn idx])⟩

/-- self.execute_query(stmt, conn).await.map_err(Into::into): a QueryError
wrapped into the union. -/
def executeQueryM (env : Env) (stmt : Stmt) (c : Conn) : M Unit :=
  ⟨fun s =>
    match env.executeQuery stmt c with
    | .error e => (.err (.query e), s, [.exec stmt c])
    | .ok _ => (.ok (), s, [.exec stmt c])⟩

/-- self.batch_execute_query(stmts, conn).await.map_err(Into::into). -/
def batchExecuteQueryM (env : Env) (stmts : List Stmt) (c : Conn) : M Unit :=
  ⟨fun s =>
    match env.batchExecuteQuery stmts c with
    | .error e => (.err (.query e), s, [.batch stmts c])
    | .ok _ => (.ok (), s, [.batch stmts c])⟩

/-- self.establish_privileged_database_connection(db_id),
a ConnectionError wrapped into the union. -/
def establishPrivilegedM (env : Env) (id : Uuid) : M Conn :=
  ⟨fun s =>
    match env.establishPrivilegedDatabaseConnection id with
    | .error e => (.err (.connection e), s, [.establishPriv id])
    | .ok c => (.ok c, s, [.establishPriv id])⟩

/-- self.establish_restricted_database_connection(db_id). -/
def establishRestrictedM (env : Env) (id : Uuid) : M Conn :=
  ⟨fun s =>
    match env.establishRestrictedDatabaseConnection id with
    | .error e => (.err (.connection e), s, [.establishRestr id])
    | .ok c => (.ok c, s, [.establishRestr id])⟩

/-- self.create_entities(conn).await: the entity-creation hook, which hands
the connection back or returns nothing. -/
def createEntitiesM (env : Env) (c : Conn) : M (Option Conn) :=
  ⟨fun s => (.ok (env.createEntities c), s, [.hook c])⟩

/-- self.create_connection_pool(db_id), a BuildError wrapped into the
union. -/
def createConnectionPoolM (env : Env) (id : Uuid) : M Pool :=
  ⟨fun s =>
    match env.createConnectionPool id with
    | .error e => (.err (.build e), s, [.buildPool id])
    | .ok p => (.ok p, s, [.buildPool id])⟩

/-- self.get_table_names(conn), a QueryError wrapped into the union. -/
def getTableNamesM (env : Env) (c : Conn) : M (List String) :=
  ⟨fun s =>
    match env.getTableNames c with
    | .error e => (.err (.query e), s, [.listTables c])
    | .ok l => (.ok l, s, [.listTables c])⟩

/-- self.put_database_connection(db_id, conn): insert into the
retained-connection map. -/
def putDatabaseConnectionM (id : Uuid) (c : Conn) : M Unit :=
  ⟨fun s => (.ok (), ⟨(id, c) :: removeRetained s.retained id⟩, [.put id c])⟩

/-- self.get_database_connection(db_id): remove and return the retained
connection; the trait signature has no error channel, so a missing id is a
contract violation (fatal), not a recoverable error. -/
def getDatabaseConnectionM (id : Uuid) : M Conn :=
  ⟨fun s =>
    match lookupRetained s.retained id with
    | none => (.fatal, s, [.take id])
    | some c => (.ok c, ⟨removeRetained s.retained id⟩, [.take id])⟩

/-- One future of the bulk-drop fan-out in init (trait.rs lines 136-153):
get a default connection, then execute a single drop-database statement for
the name.  The call index idx distinguishes this call site of
get_default_connection from the others.  The future depends only on its own
name, never on the other futures. -/
def sweepDropFuture (env : Env) (idx : Nat) (dbName : String) :
    Except BackendError Unit × List Event :=
  match env.getDefaultConnection idx with
  | .error e => (.error (.pool e), [.getDefaultConn idx])
  | .ok c =>
    match env.executeQuery (.dropDatabase dbName) c with
    | .error e => (.error (.query e), [.getDefaultConn idx, .exec (.dropDatabase dbName) c])
    | .ok _ => (.ok (), [.getDefaultConn idx, .exec (.dropDatabase dbName) c])

/-- futures::future::try_join_all on the results: ok when every future is ok,
otherwise the error of the first erring future. -/
def tryJoinAll : List (Except BackendError Unit) → Except BackendError Unit
  | [] => .ok ()
  | .error e :: _ => .error e
  | .ok _ :: rest => tryJoinAll rest

instance instDecEqExceptBE : DecidableEq (Except BackendError Unit) := fun a b =>
  match a, b with
  | .ok (), .ok () => isTrue rfl
  | .error e1, .error e2 =>
    if h : e1 = e2 then isTrue (by rw [h]) else isFalse (fun hh => h (by cases hh; rfl))
  | .ok _, .error _ => isFalse (fun h => Except.noConfusion h)
  | .error _, .ok _ => isFalse (fun h => Except.noConfusion h)

/-- A run of PostgresBackendWrapper::init: overall result, the events of the
sequential prefix (default connection, previous-name enumeration), and one
(result, trace) pair per concurrently spawned drop future. -/
structure InitRun where
  result : Except BackendError Unit
  prefixEvents : List Event
  sweep : List (Except BackendError Unit × List Event)
deriving DecidableEq, Repr

/-- PostgresBackendWrapper::init (trait.rs lines 120-158): when the
drop-previous flag is set, fetch the previous database names over one default
connection, spawn one drop future per name, and join them with
try_join_all.  The sweep field records the result and events each spawned
future produces when run to completion; this matches the program exactly on
runs where no drop fails (try_join_all then awaits every future).  On
failing runs try_join_all cancels the futures still pending at the first
error; that behaviour is modelled by initCancelling below. -/
def runInit (env : Env) : InitRun :=
  if env.dropPreviousDatabases then
    match env.getDefaultConnection 0 with
    | .error e => ⟨.error (.pool e), [.getDefaultConn 0], []⟩
    | .ok conn =>
      match env.getPreviousDatabaseNames conn with
      | .error e => ⟨.error (.query e), [.getDefaultConn 0, .listDatabases conn], []⟩
      | .ok dbNames =>
        let futures := dbNames.enum.map (fun p => sweepDropFuture env (p.1 + 1) p.2)
        ⟨tryJoinAll (futures.map Prod.fst),
         [.getDefaultConn 0, .listDatabases conn], futures⟩
  else ⟨.ok (), [], []⟩

/-- PostgresBackendWrapper::create (trait.rs lines 160-243). -/
def create (env : Env) (dbId : Uuid) (restrictPrivileges : Bool) : M Pool := do
  let dbName := getDbName dbId
  let defaultConn ← getDefaultConnectionM env 0
  executeQueryM env (.createDatabase dbName) defaultConn
  executeQueryM env (.createRole dbName) defaultConn
  if restrictPrivileges then
    let conn ← establishPrivilegedM env dbId
    let hookResult ← createEntitiesM env conn
    let conn ←
      match hookResult with
      | none => establishPrivilegedM env dbId
      | some c => pure c
    executeQueryM env (.grantRestrictedTablePrivileges dbName) conn
    executeQueryM env (.grantRestrictedSequencePrivileges dbName) conn
    putDatabaseConnectionM dbId conn
  else
    executeQueryM env (.grantDatabaseOwnership dbName dbName) defaultConn
    let conn ← establishRestrictedM env dbId
    let _ ← createEntitiesM env conn
    pure ()
  createConnectionPoolM env dbId

/-- PostgresBackendWrapper::clean (trait.rs lines 245-270). -/
def clean (env : Env) (dbId : Uuid) : M Unit := do
  let conn ← getDatabaseConnectionM dbId
  let tableNames ← getTableNamesM env conn
  let stmts := tableNames.map (fun t => Stmt.truncateTable t)
  batchExecuteQueryM env stmts conn
  putDatabaseConnectionM dbId conn

/-- PostgresBackendWrapper::drop (trait.rs lines 272-301). -/
def drop (env : Env) (dbId : Uuid) (isRestricted : Bool) : M Unit := do
  if isRestricted then
    let _ ← getDatabaseConnectionM dbId
    pure ()
  let dbName := getDbName dbId
  let conn ← getDefaultConnectionM env 0
  executeQueryM env (.dropDatabase dbName) conn
  executeQueryM env (.dropRole dbName) conn

/-- Run create from a state. -/
def runCreate (env : Env) (s : BState) (dbId : Uuid) (restrictPrivileges : Bool) :
    Outcome Pool × BState × List Event :=
  (create env dbId restrictPrivileges).run s

/-- Run clean from a state. -/
def runClean (env : Env) (s : BState) (dbId : Uuid) :
    Outcome Unit × BState × List Event :=
  (clean env dbId).run s

/-- Run drop from a state. -/
def runDrop (env : Env) (s : BState) (dbId : Uuid) (isRestricted : Bool) :
    Outcome Unit × BState × List Event :=
  (drop env dbId isRestricted).run s

/-- The statements executed through execute_query in a trace, in order. -/
def execStmts (t : List Event) : List Stmt :=
  t.filterMap (fun e =>
    match e with
    | .exec stmt _ => some stmt
    | _ => none)

/-- A backend oracle on which every primitive succeeds; previous databases
db_pool_0 and db_pool_1 exist, the entity-creation hook hands its connection
back, and one table named book exists. -/
def okEnv : Env where
  dropPreviousDatabases := true
  getDefaultConnection := fun idx => .ok (100 + idx)
  executeQuery := fun _ _ => .ok ()
  batchExecuteQuery := fun _ _ => .ok ()
  establishPrivilegedDatabaseConnection := fun id => .ok (200 + id)
  establishRestrictedDatabaseConnection := fun id => .ok (300 + id)
  getPreviousDatabaseNames := fun _ => .ok [getDbName 0, getDbName 1]
  createEntities := fun c => some c
  createConnectionPool := fun id => .ok (400 + id)
  getTableNames := fun _ => .ok ["book"]

/-- A backend oracle on which the drop-database statement for db_pool_0 fails
with query error 7, listing table names fails with query error 9, and the
entity-creation hook consumes its connection; everything else succeeds. -/
def errEnv : Env where
  dropPreviousDatabases := true
  getDefaultConnection := fun idx => .ok (100 + idx)
  executeQuery := fun stmt _ =>
    if stmt = .dropDatabase (getDbName 0) then .error 7 else .ok ()
  batchExecuteQuery := fun _ _ => .ok ()
  establishPrivilegedDatabaseConnection := fun id => .ok (200 + id)
  establishRestrictedDatabaseConnection := fun id => .ok (300 + id)
  getPreviousDatabaseNames := fun _ => .ok [getDbName 0, getDbName 1]
  createEntities := fun _ => none
  createConnectionPool := fun id => .ok (400 + id)
  getTableNames := fun _ => .error 9

/-- The fate of one spawned drop future of the init fan-out when
futures::future::try_join_all returned: either it ran to completion, or it
was cancelled (dropped by try_join_all after another future failed) having
executed only its first eventsRun events. -/
inductive FutureFate where
  | completed
  | cancelled (eventsRun : Nat)
deriving DecidableEq, Repr

/-- The events one spawned drop future had executed by the time try_join_all
returned: its whole trace when it completed, a prefix of it when it was
cancelled mid-flight. -/
def fateEvents (env : Env) (idx : Nat) (nm : String) : FutureFate → List Event
  | .completed => (sweepDropFuture env idx nm).2
  | .cancelled k => (sweepDropFuture env idx nm).2.take k

/-- The documented contract of futures::future::try_join_all over the
spawned drop futures (one per name, call index i+1 for the i-th name, as in
runInit): it returns ok only when every future ran to completion
successfully; an error return is the error some future completed with; and
futures are dropped before completing only when some future completed with
an error (try_join_all cancels the rest as soon as one future fails).  Which
futures complete is decided by the runtime schedule, so this is a relation
over the possible fates and the overall result, not a function. -/
def tryJoinAllSpec (env : Env) (names : List String)
    (fates : List FutureFate) (res : Except BackendError Unit) : Prop :=
  fates.length = names.length ∧
  (match res with
   | .ok _ =>
     ∀ p ∈ names.enum.zip fates,
       p.2 = FutureFate.completed ∧
         (sweepDropFuture env (p.1.1 + 1) p.1.2).1 = .ok ()
   | .error e =>
     ∃ p ∈ names.enum.zip fates,
       p.2 = FutureFate.completed ∧
         (sweepDropFuture env (p.1.1 + 1) p.1.2).1 = .error e) ∧
  (∀ p ∈ names.enum.zip fates, p.2 ≠ FutureFate.completed →
    ∃ q ∈ names.enum.zip fates, q.2 = FutureFate.completed ∧
      (sweepDropFuture env (q.1.1 + 1) q.1.2).1 ≠ .ok ())

/-- A possible execution of PostgresBackendWrapper::init with the
drop-previous flag set, under the cancel-on-first-error semantics of
try_join_all: the sequential prefix succeeded and produced the given names,
and the fates of the spawned per-name drop futures together with the overall
result satisfy the try_join_all contract. -/
def initCancelling (env : Env) (names : List String)
    (fates : List FutureFate) (res : Except BackendError Unit) : Prop :=
  env.dropPreviousDatabases = true ∧
  (∃ conn, env.getDefaultConnection 0 = .ok conn ∧
    env.getPreviousDatabaseNames conn = .ok names) ∧
  tryJoinAllSpec env names fates res

theorem lookupRetained_removeRetained (l : List (Uuid × Conn)) (id : Uuid) :
    lookupRetained (removeRetained l id) id = none := by
  induction l with
  | nil => rfl
  | cons p rest ih =>
    obtain ⟨k, c⟩ := p
    by_cases h : k = id
    · simp [removeRetained, h, ih]
    · simp [removeRetained, lookupRetained, h, ih]

theorem removeRetained_idem (l : List (Uuid × Conn)) (id : Uuid) :
    removeRetained (removeRetained l id) id = removeRetained l id := by
  induction l with
  | nil => rfl
  | cons p rest ih =>
    obtain ⟨k, c⟩ := p
    by_cases h : k = id
    · simp [removeRetained, h, ih]
    · simp [removeRetained, h, ih]

/-- Unfolding of a successful init prefix: the sweep is one drop future per
previous name, joined by try_join_all. -/
theorem runInit_eq (env : Env) (conn : Conn) (names : List String)
    (h0 : env.dropPreviousDatabases = true)
    (h1 : env.getDefaultConnection 0 = .ok conn)
    (h2 : env.getPreviousDatabaseNames conn = .ok names) :
    runInit env =
      ⟨tryJoinAll ((names.enum.map
          (fun p => sweepDropFuture env (p.1 + 1) p.2)).map Prod.fst),
       [.getDefaultConn 0, .listDatabases conn],
       names.enum.map (fun p => sweepDropFuture env (p.1 + 1) p.2)⟩ := by
  simp [runInit, h0, h1, h2]

/-- A sweep drop future executes either no statement (its connection could
not be obtained) or exactly the one drop-database statement for its name. -/
theorem sweepDropFuture_stmts (env : Env) (idx : Nat) (nm : String) :
    execStmts (sweepDropFuture env idx nm).2 = [] ∨
    execStmts (sweepDropFuture env idx nm).2 = [Stmt.dropDatabase nm] := by
  unfold sweepDropFuture
  cases hA : env.getDefaultConnection idx with
  | error e => left; simp [hA, execStmts]
  | ok c =>
    cases hB : env.executeQuery (.dropDatabase nm) c with
    | error e => right; simp [hA, hB, execStmts]
    | ok u => right; simp [hA, hB, execStmts]

/-- A successful sweep drop future executes exactly the drop-database
statement for its name. -/
theorem sweepDropFuture_ok_stmts (env : Env) (idx : Nat) (nm : String)
    (h : (sweepDropFuture env idx nm).1 = .ok ()) :
    execStmts (sweepDropFuture env idx nm).2 = [Stmt.dropDatabase nm] := by
  revert h
  unfold sweepDropFuture
  cases hA : env.getDefaultConnection idx with
  | error e => simp [hA]
  | ok c =>
    cases hB : env.executeQuery (.dropDatabase nm) c with
    | error e => intro h; simp [hA, hB, execStmts]
    | ok u => intro h; simp [hA, hB, execStmts]

/-- C1, counterexample.  On a backend where every statement succeeds and the
previous databases are db_pool_0 and db_pool_1, the statement sequence the
bulk-drop sweep of init executes against db_pool_0 is only the drop-database
statement, while drop executes a drop-database statement followed by a
drop-role statement, so the two sequences differ. -/
theorem init_sweep_sequence_differs_from_drop :
    ((runInit okEnv).sweep.map (fun f => execStmts f.2)).head? =
      some [Stmt.dropDatabase (getDbName 0)] ∧
    execStmts (runDrop okEnv ⟨[]⟩ 0 false).2.2 =
      [Stmt.dropDatabase (getDbName 0), Stmt.dropRole (getDbName 0)] ∧
    ((runInit okEnv).sweep.map (fun f => execStmts f.2)).head? ≠
      some (execStmts (runDrop okEnv ⟨[]⟩ 0 false).2.2) := by
  decide

/-- C1, amended.  For every previous database name returned by the
enumeration, the bulk-drop sweep of init executes against that name only a
drop-database statement: it never executes the drop-role statement that drop
would additionally execute for the derived name. -/
theorem init_sweep_executes_drop_database_only (env : Env) (conn : Conn)
    (names : List String)
    (h0 : env.dropPreviousDatabases = true)
    (h1 : env.getDefaultConnection 0 = .ok conn)
    (h2 : env.getPreviousDatabaseNames conn = .ok names) :
    (runInit env).sweep =
      names.enum.map (fun p => sweepDropFuture env (p.1 + 1) p.2) ∧
    ∀ idx nm,
      Stmt.dropRole nm ∉ execStmts (sweepDropFuture env idx nm).2 ∧
      ((sweepDropFuture env idx nm).1 = .ok () →
        execStmts (sweepDropFuture env idx nm).2 = [Stmt.dropDatabase nm]) := by
  refine ⟨by rw [runInit_eq env conn names h0 h1 h2], fun idx nm => ⟨?_, ?_⟩⟩
  · rcases sweepDropFuture_stmts env idx nm with h | h <;> simp [h]
  · exact sweepDropFuture_ok_stmts env idx nm

theorem init_sweep_executes_drop_database_only_witness :
    (runInit okEnv).sweep =
      ([getDbName 0, getDbName 1] : List String).enum.map
        (fun p => sweepDropFuture okEnv (p.1 + 1) p.2) :=
  (init_sweep_executes_drop_database_only okEnv 100 [getDbName 0, getDbName 1]
    rfl rfl rfl).1

/-- Every error a sweep drop future can complete with is a pool error (from
obtaining its default connection) or a query error (from its drop-database
statement). -/
theorem sweepDropFuture_err_kinds (env : Env) (idx : Nat) (nm : String)
    (e : BackendError)
    (h : (sweepDropFuture env idx nm).1 = .error e) :
    (∃ q, e = .pool q) ∨ (∃ q, e = .query q) := by
  revert h
  unfold sweepDropFuture
  cases hA : env.getDefaultConnection idx with
  | error e2 =>
    intro h
    simp only [hA] at h
    injection h with h2
    exact Or.inl ⟨e2, h2.symm⟩
  | ok c =>
    cases hB : env.executeQuery (.dropDatabase nm) c with
    | error e2 =>
      intro h
      simp only [hA, hB] at h
      injection h with h2
      exact Or.inr ⟨e2, h2.symm⟩
    | ok u =>
      intro h
      simp only [hA, hB] at h
      exact absurd h (by simp)

/-- The statements of a prefix of a trace are among the statements of the
whole trace. -/
theorem execStmts_take_subset (l : List Event) (k : Nat) :
    execStmts (l.take k) ⊆ execStmts l := by
  intro x hx
  simp only [execStmts, List.mem_filterMap] at hx ⊢
  obtain ⟨e, he, hmatch⟩ := hx
  exact ⟨e, List.take_subset k l he, hmatch⟩

/-- Whatever its fate, a future never executes any statement besides the one
drop-database statement for its own name (a cancelled future has executed
only a prefix of its events). -/
theorem sweep_fate_stmts (env : Env) (idx : Nat) (nm : String)
    (f : FutureFate) :
    ∀ st ∈ execStmts (fateEvents env idx nm f), st = Stmt.dropDatabase nm := by
  intro st hst
  have hsub : execStmts (fateEvents env idx nm f) ⊆
      execStmts (sweepDropFuture env idx nm).2 := by
    cases f with
    | completed => exact fun x hx => hx
    | cancelled k => exact execStmts_take_subset _ k
  have hmem := hsub hst
  rcases sweepDropFuture_stmts env idx nm with h | h
  · rw [h] at hmem
    exact absurd hmem (List.not_mem_nil st)
  · rw [h] at hmem
    exact List.mem_singleton.mp hmem

/-- The concrete failing execution used for C2: on errEnv the completed
future for db_pool_0 fails with query error 7 and the future for db_pool_1
is cancelled before executing anything, which is an admissible behaviour of
try_join_all. -/
theorem initCancelling_errEnv :
    initCancelling errEnv [getDbName 0, getDbName 1]
      [.completed, .cancelled 0] (.error (.query 7)) := by
  refine ⟨rfl, ⟨100, rfl, rfl⟩, rfl, ?_, ?_⟩ <;> decide

/-- C2, counterexample.  A valid execution of the bulk-drop fan-out of init
under the cancel-on-first-error semantics of futures try_join_all, on a
backend where dropping db_pool_0 fails: the spawned future for db_pool_1 is
cancelled before executing any event, although its drop would have
succeeded had it run, so one name's failure did prevent another name's drop
from being attempted; init returns the single error of the drop that
failed. -/
theorem init_sweep_cancellation_prevents_other_drops :
    initCancelling errEnv [getDbName 0, getDbName 1]
      [.completed, .cancelled 0] (.error (.query 7)) ∧
    fateEvents errEnv 2 (getDbName 1) (.cancelled 0) = [] ∧
    execStmts (fateEvents errEnv 2 (getDbName 1) (.cancelled 0)) = [] ∧
    (sweepDropFuture errEnv 2 (getDbName 1)).1 = .ok () ∧
    (sweepDropFuture errEnv 1 (getDbName 0)).1 = .error (.query 7) :=
  ⟨initCancelling_errEnv, rfl, rfl, by decide, by decide⟩

/-- C2, amended.  In the bulk-drop fan-out of init one drop future is
spawned per previous name, but under the cancel-on-first-error semantics of
futures try_join_all a failing drop makes init return that single error and
cancels the futures still pending, which can prevent other names' drops from
being attempted.  In every admissible execution: one future exists per name;
init returns an error exactly when some completed drop failed, and that
error is the pool or query error of such a drop; futures are cancelled only
when some completed drop actually failed; and no future, completed or
cancelled, ever executes any statement besides its own drop-database
statement, so the drops that succeeded are never rolled back. -/
theorem init_sweep_fanout_cancellation (env : Env) (names : List String)
    (fates : List FutureFate) (res : Except BackendError Unit)
    (h : initCancelling env names fates res) :
    fates.length = names.length ∧
    ((∃ e, res = .error e) ↔
      ∃ p ∈ names.enum.zip fates, p.2 = FutureFate.completed ∧
        (sweepDropFuture env (p.1.1 + 1) p.1.2).1 ≠ .ok ()) ∧
    (∀ e, res = .error e → (∃ q, e = .pool q) ∨ (∃ q, e = .query q)) ∧
    (∀ p ∈ names.enum.zip fates, p.2 ≠ FutureFate.completed →
      ∃ q ∈ names.enum.zip fates, q.2 = FutureFate.completed ∧
        (sweepDropFuture env (q.1.1 + 1) q.1.2).1 ≠ .ok ()) ∧
    (∀ p ∈ names.enum.zip fates,
      ∀ st ∈ execStmts (fateEvents env (p.1.1 + 1) p.1.2 p.2),
        st = Stmt.dropDatabase p.1.2) := by
  obtain ⟨hflag, hpre, hlen, hres, hcancel⟩ := h
  cases res with
  | ok u =>
    cases u
    refine ⟨hlen, ?_, ?_, hcancel, ?_⟩
    · constructor
      · rintro ⟨e, he⟩
        exact absurd he (by simp)
      · rintro ⟨p, hp, hcomp, hne⟩
        exact absurd (hres p hp).2 hne
    · intro e he
      exact absurd he (by simp)
    · intro p hp
      exact sweep_fate_stmts env (p.1.1 + 1) p.1.2 p.2
  | error e0 =>
    obtain ⟨p0, hp0, hcomp0, herr0⟩ := hres
    refine ⟨hlen, ?_, ?_, hcancel, ?_⟩
    · constructor
      · rintro ⟨e, he⟩
        exact ⟨p0, hp0, hcomp0, by rw [herr0]; simp⟩
      · intro _
        exact ⟨e0, rfl⟩
    · intro e he
      injection he with h2
      rw [← h2]
      exact sweepDropFuture_err_kinds env (p0.1.1 + 1) p0.1.2 e0 herr0
    · intro p hp
      exact sweep_fate_stmts env (p.1.1 + 1) p.1.2 p.2

theorem init_sweep_fanout_cancellation_witness :
    ([FutureFate.completed, FutureFate.cancelled 0] : List FutureFate).length =
      ([getDbName 0, getDbName 1] : List String).length :=
  (init_sweep_fanout_cancellation errEnv [getDbName 0, getDbName 1]
    [.completed, .cancelled 0] (.error (.query 7)) initCancelling_errEnv).1

/-- C3.  In a restricted create whose steps all succeed, after the
create-database and create-role statements a privileged connection to the new
database is established, the entity-creation hook runs exactly once on it, a
fresh privileged connection is established exactly when the hook returns
nothing, then the restricted table privileges and the restricted sequence
privileges are granted in that order, and the resulting privileged connection
is retained in the map under the database id. -/
theorem create_restricted_trace (env : Env) (s : BState) (dbId : Uuid)
    (c0 pc : Conn) (hk : Option Conn) (pl : Pool)
    (h1 : env.getDefaultConnection 0 = .ok c0)
    (h2 : env.executeQuery (.createDatabase (getDbName dbId)) c0 = .ok ())
    (h3 : env.executeQuery (.createRole (getDbName dbId)) c0 = .ok ())
    (h4 : env.establishPrivilegedDatabaseConnection dbId = .ok pc)
    (h5 : env.createEntities pc = hk)
    (h6 : env.executeQuery (.grantRestrictedTablePrivileges (getDbName dbId))
      (hk.getD pc) = .ok ())
    (h7 : env.executeQuery (.grantRestrictedSequencePrivileges (getDbName dbId))
      (hk.getD pc) = .ok ())
    (h8 : env.createConnectionPool dbId = .ok pl) :
    runCreate env s dbId true =
      (.ok pl, ⟨(dbId, hk.getD pc) :: removeRetained s.retained dbId⟩,
        [.getDefaultConn 0,
         .exec (.createDatabase (getDbName dbId)) c0,
         .exec (.createRole (getDbName dbId)) c0,
         .establishPriv dbId,
         .hook pc]
        ++ (match hk with | none => [Event.establishPriv dbId] | some _ => [])
        ++ [.exec (.grantRestrictedTablePrivileges (getDbName dbId)) (hk.getD pc),
            .exec (.grantRestrictedSequencePrivileges (getDbName dbId)) (hk.getD pc),
            .put dbId (hk.getD pc),
            .buildPool dbId]) := by
  cases hk with
  | none =>
    simp only [Option.getD] at h6 h7
    simp [runCreate, create, instMonadM, getDefaultConnectionM, executeQueryM,
      establishPrivilegedM, createEntitiesM, createConnectionPoolM,
      putDatabaseConnectionM, withTrace_mk, h1, h2, h3, h4, h5, h6, h7, h8]
  | some c =>
    simp only [Option.getD] at h6 h7
    simp [runCreate, create, instMonadM, getDefaultConnectionM, executeQueryM,
      establishPrivilegedM, createEntitiesM, createConnectionPoolM,
      putDatabaseConnectionM, withTrace_mk, h1, h2, h3, h4, h5, h6, h7, h8]

theorem create_restricted_trace_witness :
    runCreate okEnv ⟨[]⟩ 5 true =
      (.ok 405, ⟨[(5, 205)]⟩,
        [.getDefaultConn 0,
         .exec (.createDatabase (getDbName 5)) 100,
         .exec (.createRole (getDbName 5)) 100,
         .establishPriv 5,
         .hook 205,
         .exec (.grantRestrictedTablePrivileges (getDbName 5)) 205,
         .exec (.grantRestrictedSequencePrivileges (getDbName 5)) 205,
         .put 5 205,
         .buildPool 5]) :=
  create_restricted_trace okEnv ⟨[]⟩ 5 100 205 (some 205) 405
    rfl rfl rfl rfl rfl rfl rfl rfl

/-- C5.  A clean on a database whose privileged connection is retained takes
that connection out of the map, lists the table names, builds exactly one
truncate statement per listed table, executes them as one batch on that same
connection, and puts the same connection back into the map under the
database id before returning success. -/
theorem clean_trace (env : Env) (s : BState) (dbId : Uuid) (conn : Conn)
    (tbls : List String)
    (h1 : lookupRetained s.retained dbId = some conn)
    (h2 : env.getTableNames conn = .ok tbls)
    (h3 : env.batchExecuteQuery (tbls.map Stmt.truncateTable) conn = .ok ()) :
    runClean env s dbId =
      (.ok (), ⟨(dbId, conn) :: removeRetained s.retained dbId⟩,
        [.take dbId, .listTables conn,
         .batch (tbls.map Stmt.truncateTable) conn,
         .put dbId conn]) := by
  simp [runClean, clean, instMonadM, getDatabaseConnectionM, getTableNamesM,
    batchExecuteQueryM, putDatabaseConnectionM, withTrace_mk,
    removeRetained_idem, h1, h2, h3]

theorem clean_trace_witness :
    runClean okEnv ⟨[(5, 205)]⟩ 5 =
      (.ok (), ⟨[(5, 205)]⟩,
        [.take 5, .listTables 205,
         .batch [.truncateTable "book"] 205,
         .put 5 205]) :=
  clean_trace okEnv ⟨[(5, 205)]⟩ 5 205 ["book"] rfl rfl rfl

/-- C6.  A restricted drop takes the retained connection out of the map and
discards it before any statement runs, then obtains a default connection and
executes the drop-database and drop-role statements in that order; an
unrestricted drop leaves the retained-connection map untouched and executes
the same two statements in the same order. -/
theorem drop_trace (env : Env) (s : BState) (dbId : Uuid) (conn c : Conn)
    (h1 : lookupRetained s.retained dbId = some conn)
    (h2 : env.getDefaultConnection 0 = .ok c)
    (h3 : env.executeQuery (.dropDatabase (getDbName dbId)) c = .ok ())
    (h4 : env.executeQuery (.dropRole (getDbName dbId)) c = .ok ()) :
    runDrop env s dbId true =
      (.ok (), ⟨removeRetained s.retained dbId⟩,
        [.take dbId, .getDefaultConn 0,
         .exec (.dropDatabase (getDbName dbId)) c,
         .exec (.dropRole (getDbName dbId)) c]) ∧
    runDrop env s dbId false =
      (.ok (), s,
        [.getDefaultConn 0,
         .exec (.dropDatabase (getDbName dbId)) c,
         .exec (.dropRole (getDbName dbId)) c]) := by
  constructor <;>
    simp [runDrop, drop, instMonadM, getDatabaseConnectionM,
      getDefaultConnectionM, executeQueryM, withTrace_mk, h1, h2, h3, h4]

theorem drop_trace_witness :
    runDrop okEnv ⟨[(5, 205)]⟩ 5 true =
      (.ok (), ⟨[]⟩,
        [.take 5, .getDefaultConn 0,
         .exec (.dropDatabase (getDbName 5)) 100,
         .exec (.dropRole (getDbName 5)) 100]) ∧
    runDrop okEnv ⟨[(5, 205)]⟩ 5 false =
      (.ok (), ⟨[(5, 205)]⟩,
        [.getDefaultConn 0,
         .exec (.dropDatabase (getDbName 5)) 100,
         .exec (.dropRole (getDbName 5)) 100]) :=
  drop_trace okEnv ⟨[(5, 205)]⟩ 5 205 100 rfl rfl rfl rfl

theorem clean_fatal_of_missing (env : Env) (s : BState) (dbId : Uuid)
    (h : lookupRetained s.retained dbId = none) :
    (runClean env s dbId).1 = .fatal := by
  simp [runClean, clean, instMonadM, getDatabaseConnectionM, withTrace_mk, h]

theorem drop_fatal_of_missing (env : Env) (s : BState) (dbId : Uuid)
    (h : lookupRetained s.retained dbId = none) :
    (runDrop env s dbId true).1 = .fatal := by
  simp [runDrop, drop, instMonadM, getDatabaseConnectionM, withTrace_mk, h]

/-- When the retained connection is present, a clean either succeeds or fails
with a query error (from listing the tables or executing the truncate batch),
with the retained entry removed and not reinserted in the failure case. -/
theorem clean_shape (env : Env) (s : BState) (dbId : Uuid) (c : Conn)
    (h : lookupRetained s.retained dbId = some c) :
    (runClean env s dbId).1 = .ok () ∨
    (∃ e, (runClean env s dbId).1 = .err (.query e) ∧
      (runClean env s dbId).2.1 = ⟨removeRetained s.retained dbId⟩) := by
  cases hB : env.getTableNames c with
  | error e =>
    right
    exact ⟨e, by simp [runClean, clean, instMonadM, getDatabaseConnectionM,
      getTableNamesM, withTrace_mk, h, hB]⟩
  | ok tbls =>
    cases hC : env.batchExecuteQuery (tbls.map Stmt.truncateTable) c with
    | error e =>
      right
      exact ⟨e, by simp [runClean, clean, instMonadM, getDatabaseConnectionM,
        getTableNamesM, batchExecuteQueryM, withTrace_mk, h, hB, hC]⟩
    | ok u =>
      left
      cases u
      simp [runClean, clean, instMonadM, getDatabaseConnectionM,
        getTableNamesM, batchExecuteQueryM, putDatabaseConnectionM,
        withTrace_mk, h, hB, hC]

/-- When the retained connection is present, a restricted drop either
succeeds or fails with a pool error (default connection) or a query error
(one of the two statements). -/
theorem drop_restricted_shape (env : Env) (s : BState) (dbId : Uuid) (c : Conn)
    (h : lookupRetained s.retained dbId = some c) :
    (runDrop env s dbId true).1 = .ok () ∨
    (∃ e, (runDrop env s dbId true).1 = .err (.pool e)) ∨
    (∃ e, (runDrop env s dbId true).1 = .err (.query e)) := by
  cases hB : env.getDefaultConnection 0 with
  | error e =>
    right; left
    exact ⟨e, by simp [runDrop, drop, instMonadM, getDatabaseConnectionM,
      getDefaultConnectionM, withTrace_mk, h, hB]⟩
  | ok c0 =>
    cases hC : env.executeQuery (.dropDatabase (getDbName dbId)) c0 with
    | error e =>
      right; right
      exact ⟨e, by simp [runDrop, drop, instMonadM, getDatabaseConnectionM,
        getDefaultConnectionM, executeQueryM, withTrace_mk, h, hB, hC]⟩
    | ok u1 =>
      cases hD : env.executeQuery (.dropRole (getDbName dbId)) c0 with
      | error e =>
        right; right
        exact ⟨e, by simp [runDrop, drop, instMonadM, getDatabaseConnectionM,
          getDefaultConnectionM, executeQueryM, withTrace_mk, h, hB, hC, hD]⟩
      | ok u2 =>
        left
        simp [runDrop, drop, instMonadM, getDatabaseConnectionM,
          getDefaultConnectionM, executeQueryM, withTrace_mk, h, hB, hC, hD]

/-- C7.  get_database_connection has no error channel: on a missing id the
take inside clean or restricted drop is fatal (a contract violation), never
one of the four recoverable error kinds; and when the id is present (the
database was created as Restricted and its connection retained), the take
step cannot surface any recoverable error: every recoverable error of clean
is a query error and every recoverable error of restricted drop is a pool or
query error, each produced by a later step. -/
theorem take_missing_fatal_not_recoverable (env : Env) (s : BState)
    (dbId : Uuid) :
    (lookupRetained s.retained dbId = none →
      (runClean env s dbId).1 = .fatal ∧ (runDrop env s dbId true).1 = .fatal) ∧
    (∀ c, lookupRetained s.retained dbId = some c →
      (runClean env s dbId).1 ≠ .fatal ∧
      (runDrop env s dbId true).1 ≠ .fatal ∧
      (∀ e, (runClean env s dbId).1 = .err e → ∃ q, e = .query q) ∧
      (∀ e, (runDrop env s dbId true).1 = .err e →
        (∃ p, e = .pool p) ∨ (∃ q, e = .query q))) := by
  refine ⟨fun h => ⟨clean_fatal_of_missing env s dbId h,
    drop_fatal_of_missing env s dbId h⟩, fun c hc => ?_⟩
  have hclean := clean_shape env s dbId c hc
  have hdrop := drop_restricted_shape env s dbId c hc
  refine ⟨?_, ?_, ?_, ?_⟩
  · rcases hclean with h | ⟨e, he, _⟩
    · simp [h]
    · simp [he]
  · rcases hdrop with h | ⟨e, he⟩ | ⟨e, he⟩
    · simp [h]
    · simp [he]
    · simp [he]
  · intro e hee
    rcases hclean with h | ⟨e2, he2, _⟩
    · rw [h] at hee
      exact absurd hee (by simp)
    · rw [he2] at hee
      injection hee with h3
      exact ⟨e2, h3.symm⟩
  · intro e hee
    rcases hdrop with h | ⟨e2, he2⟩ | ⟨e2, he2⟩
    · rw [h] at hee
      exact absurd hee (by simp)
    · rw [he2] at hee
      injection hee with h3
      exact Or.inl ⟨e2, h3.symm⟩
    · rw [he2] at hee
      injection hee with h3
      exact Or.inr ⟨e2, h3.symm⟩

theorem take_missing_fatal_not_recoverable_witness :
    (runClean okEnv ⟨[]⟩ 0).1 = .fatal ∧
    (runClean okEnv ⟨[(0, 7)]⟩ 0).1 ≠ .fatal :=
  ⟨((take_missing_fatal_not_recoverable okEnv ⟨[]⟩ 0).1 rfl).1,
   (((take_missing_fatal_not_recoverable okEnv ⟨[(0, 7)]⟩ 0).2) 7 rfl).1⟩

/-- C9.  If a clean fails (listing table names or executing the truncate
batch returns an error), the retained entry that clean removed at its start
is not reinserted: the map has no entry for the id afterwards, so a
subsequent clean or restricted drop performs a take on a missing id and is
fatal. -/
theorem clean_failure_leaves_no_retained_entry (env : Env) (s : BState)
    (dbId : Uuid) (conn : Conn) (e : BackendError)
    (h1 : lookupRetained s.retained dbId = some conn)
    (h2 : (runClean env s dbId).1 = .err e) :
    lookupRetained (runClean env s dbId).2.1.retained dbId = none ∧
    (runClean env (runClean env s dbId).2.1 dbId).1 = .fatal ∧
    (runDrop env (runClean env s dbId).2.1 dbId true).1 = .fatal := by
  rcases clean_shape env s dbId conn h1 with h | ⟨e2, he2, hst⟩
  · rw [h] at h2
    exact absurd h2 (by simp)
  · have hnone : lookupRetained (runClean env s dbId).2.1.retained dbId = none := by
      rw [hst]
      exact lookupRetained_removeRetained s.retained dbId
    exact ⟨hnone, clean_fatal_of_missing env _ dbId hnone,
      drop_fatal_of_missing env _ dbId hnone⟩

theorem clean_failure_leaves_no_retained_entry_witness :
    lookupRetained (runClean errEnv ⟨[(5, 205)]⟩ 5).2.1.retained 5 = none ∧
    (runClean errEnv (runClean errEnv ⟨[(5, 205)]⟩ 5).2.1 5).1 = .fatal ∧
    (runDrop errEnv (runClean errEnv ⟨[(5, 205)]⟩ 5).2.1 5 true).1 = .fatal :=
  clean_failure_leaves_no_retained_entry errEnv ⟨[(5, 205)]⟩ 5 205
    (.query 9) rfl rfl

/-- An unrestricted create never touches the retained-connection map and
never opens a privileged connection to the new database. -/
theorem create_unrestricted_invariants (env : Env) (s : BState) (dbId : Uuid) :
    (runCreate env s dbId false).2.1 = s ∧
    (∀ c, Event.put dbId c ∉ (runCreate env s dbId false).2.2) ∧
    Event.establishPriv dbId ∉ (runCreate env s dbId false).2.2 ∧
    Event.take dbId ∉ (runCreate env s dbId false).2.2 := by
  simp only [runCreate, create, instMonadM, getDefaultConnectionM, executeQueryM,
    establishRestrictedM, createEntitiesM, createConnectionPoolM]
  cases hA : env.getDefaultConnection 0 with
  | error e => simp [hA, withTrace_mk]
  | ok c0 =>
    cases hB : env.executeQuery (Stmt.createDatabase (getDbName dbId)) c0 with
    | error e => simp [hA, hB, withTrace_mk]
    | ok u1 =>
      cases hC : env.executeQuery (Stmt.createRole (getDbName dbId)) c0 with
      | error e => simp [hA, hB, hC, withTrace_mk]
      | ok u2 =>
        cases hD : env.executeQuery
            (Stmt.grantDatabaseOwnership (getDbName dbId) (getDbName dbId)) c0 with
        | error e => simp [hA, hB, hC, hD, withTrace_mk]
        | ok u3 =>
          cases hE : env.establishRestrictedDatabaseConnection dbId with
          | error e => simp [hA, hB, hC, hD, hE, withTrace_mk]
          | ok rc =>
            cases hF : env.createConnectionPool dbId with
            | error e => simp [hA, hB, hC, hD, hE, hF, withTrace_mk]
            | ok p => simp [hA, hB, hC, hD, hE, hF, withTrace_mk]

/-- A restricted create either fails before the retention point, leaving the
state untouched and the error a non-build kind, or reaches the retention
point, inserting exactly one connection under the id, after which the only
possible outcomes are success or a build error from pool construction. -/
theorem create_restricted_cases (env : Env) (s : BState) (dbId : Uuid) :
    ((runCreate env s dbId true).2.1 = s ∧
      (∀ c, Event.put dbId c ∉ (runCreate env s dbId true).2.2) ∧
      (∃ e, (runCreate env s dbId true).1 = .err e ∧ ∀ b, e ≠ .build b)) ∨
    (∃ c, (runCreate env s dbId true).2.1 =
        ⟨(dbId, c) :: removeRetained s.retained dbId⟩ ∧
      (∀ c2, Event.put dbId c2 ∈ (runCreate env s dbId true).2.2 ↔ c2 = c) ∧
      ((∃ p, (runCreate env s dbId true).1 = .ok p) ∨
        (∃ e, (runCreate env s dbId true).1 = .err (.build e)))) := by
  simp only [runCreate, create, instMonadM, getDefaultConnectionM, executeQueryM,
    establishPrivilegedM, createEntitiesM, createConnectionPoolM,
    putDatabaseConnectionM]
  cases hA : env.getDefaultConnection 0 with
  | error e => exact Or.inl (by simp [hA, withTrace_mk])
  | ok c0 =>
    cases hB : env.executeQuery (Stmt.createDatabase (getDbName dbId)) c0 with
    | error e => exact Or.inl (by simp [hA, hB, withTrace_mk])
    | ok u1 =>
      cases hC : env.executeQuery (Stmt.createRole (getDbName dbId)) c0 with
      | error e => exact Or.inl (by simp [hA, hB, hC, withTrace_mk])
      | ok u2 =>
        cases hE : env.establishPrivilegedDatabaseConnection dbId with
        | error e => exact Or.inl (by simp [hA, hB, hC, hE, withTrace_mk])
        | ok pc =>
          cases hH : env.createEntities pc with
          | none =>
            cases hF : env.executeQuery
                (Stmt.grantRestrictedTablePrivileges (getDbName dbId)) pc with
            | error e =>
              exact Or.inl (by simp [hA, hB, hC, hE, hH, hF, withTrace_mk])
            | ok u3 =>
              cases hG : env.executeQuery
                  (Stmt.grantRestrictedSequencePrivileges (getDbName dbId)) pc with
              | error e =>
                exact Or.inl (by simp [hA, hB, hC, hE, hH, hF, hG, withTrace_mk])
              | ok u4 =>
                cases hP : env.createConnectionPool dbId with
                | error e =>
                  exact Or.inr ⟨pc,
                    by simp [hA, hB, hC, hE, hH, hF, hG, hP, withTrace_mk]⟩
                | ok p =>
                  exact Or.inr ⟨pc,
                    by simp [hA, hB, hC, hE, hH, hF, hG, hP, withTrace_mk]⟩
          | some c2 =>
            cases hF : env.executeQuery
                (Stmt.grantRestrictedTablePrivileges (getDbName dbId)) c2 with
            | error e =>
              exact Or.inl (by simp [hA, hB, hC, hE, hH, hF, withTrace_mk])
            | ok u3 =>
              cases hG : env.executeQuery
                  (Stmt.grantRestrictedSequencePrivileges (getDbName dbId)) c2 with
              | error e =>
                exact Or.inl (by simp [hA, hB, hC, hE, hH, hF, hG, withTrace_mk])
              | ok u4 =>
                cases hP : env.createConnectionPool dbId with
                | error e =>
                  exact Or.inr ⟨c2,
                    by simp [hA, hB, hC, hE, hH, hF, hG, hP, withTrace_mk]⟩
                | ok p =>
                  exact Or.inr ⟨c2,
                    by simp [hA, hB, hC, hE, hH, hF, hG, hP, withTrace_mk]⟩

/-- C4.  A create retains a connection under the id (the map gains an entry,
witnessed by a put event) exactly when the mode is restricted and every step
up to the retention point succeeded (equivalently: the run ends in success or
in the one error that can occur after retention, a build error from pool
construction).  An unrestricted create never touches the map, and a create
failing before the retention point leaves the state exactly as it was. -/
theorem create_retention_iff (env : Env) (s : BState) (dbId : Uuid) :
    (runCreate env s dbId false).2.1 = s ∧
    (∀ c, Event.put dbId c ∉ (runCreate env s dbId false).2.2) ∧
    ((∃ c, Event.put dbId c ∈ (runCreate env s dbId true).2.2) ↔
      ((∃ p, (runCreate env s dbId true).1 = .ok p) ∨
        (∃ e, (runCreate env s dbId true).1 = .err (.build e)))) ∧
    (∀ e, (runCreate env s dbId true).1 = .err e → (∀ b, e ≠ .build b) →
      (runCreate env s dbId true).2.1 = s) ∧
    (∀ c, Event.put dbId c ∈ (runCreate env s dbId true).2.2 →
      (runCreate env s dbId true).2.1 =
        ⟨(dbId, c) :: removeRetained s.retained dbId⟩) := by
  obtain ⟨ha, hb, _, _⟩ := create_unrestricted_invariants env s dbId
  refine ⟨ha, hb, ?_, ?_, ?_⟩ <;>
    rcases create_restricted_cases env s dbId with
      ⟨hs, hnp, e0, he0, hnb⟩ | ⟨c0, hst, hmem, hres⟩
  · constructor
    · rintro ⟨c, hc⟩
      exact absurd hc (hnp c)
    · rintro (⟨p, hp⟩ | ⟨e, he⟩)
      · rw [he0] at hp
        exact absurd hp (by simp)
      · rw [he0] at he
        injection he with h3
        exact absurd h3 (hnb e)
  · exact ⟨fun _ => hres, fun _ => ⟨c0, (hmem c0).mpr rfl⟩⟩
  · intro e he hne
    exact hs
  · intro e he hne
    rcases hres with ⟨p, hp⟩ | ⟨e2, he2⟩
    · rw [he] at hp
      exact absurd hp (by simp)
    · rw [he] at he2
      injection he2 with h3
      exact absurd h3 (hne e2)
  · intro c hc
    exact absurd hc (hnp c)
  · intro c hc
    rw [(hmem c).mp hc]
    exact hst

theorem create_retention_iff_witness :
    (runCreate okEnv ⟨[]⟩ 5 false).2.1 = (⟨[]⟩ : BState) :=
  (create_retention_iff okEnv ⟨[]⟩ 5).1

/-- The unrestricted create discards the entity-creation hook result, so the
whole run is the same function of the backend regardless of the hook. -/
theorem create_unrestricted_hook_blind (env : Env) (f : Conn → Option Conn)
    (s : BState) (dbId : Uuid) :
    runCreate { env with createEntities := f } s dbId false =
      runCreate env s dbId false := rfl

/-- C10.  In an unrestricted create the value returned by the
entity-creation hook has no effect on the result: replacing the hook by any
other (for example one returning nothing instead of the connection) yields
the identical run, and in all cases no privileged connection is established,
no connection is retained, and the hook step itself cannot fail (its result
is discarded). -/
theorem create_unrestricted_hook_independent (env : Env)
    (f : Conn → Option Conn) (s : BState) (dbId : Uuid) :
    runCreate { env with createEntities := f } s dbId false =
      runCreate env s dbId false ∧
    (runCreate env s dbId false).2.1 = s ∧
    (∀ c, Event.put dbId c ∉ (runCreate env s dbId false).2.2) ∧
    Event.establishPriv dbId ∉ (runCreate env s dbId false).2.2 :=
  ⟨create_unrestricted_hook_blind env f s dbId,
   (create_unrestricted_invariants env s dbId).1,
   (create_unrestricted_invariants env s dbId).2.1,
   (create_unrestricted_invariants env s dbId).2.2.1⟩

theorem create_unrestricted_hook_independent_witness :
    runCreate { okEnv with createEntities := fun _ => none } ⟨[]⟩ 5 false =
      runCreate okEnv ⟨[]⟩ 5 false :=
  (create_unrestricted_hook_independent okEnv (fun _ => none) ⟨[]⟩ 5).1

/-- Modelled from the spec: the Concurrency Guard of section 5, a
shared/exclusive (readers-writer) lock scoped to one backend instance, is not
part of the sources under src (the sources hold only the orchestrator; the
test harness serializes itself through a comparable lock), so its discipline
is modelled from the words of the spec. -/
inductive LockMode where
  | shared
  | exclusive
deriving DecidableEq, Repr

/-- Modelled from the spec: the operations that take the Concurrency Guard. -/
inductive BackendOp where
  | init
  | create
  | clean
  | drop
deriving DecidableEq, Repr

/-- Modelled from the spec: the guard mode each backend operation holds for
its whole duration — the bulk-drop sweep of init is the one writer, all
per-database operations are readers. -/
def guardMode : BackendOp → LockMode
  | .init => .exclusive
  | .create => .shared
  | .clean => .shared
  | .drop => .shared

/-- Modelled from the spec: a readers-writer lock admits a multiset of
simultaneous holders only when any exclusive holder is alone. -/
def rwCompatible (held : List BackendOp) : Prop :=
  ∀ op ∈ held, guardMode op = .exclusive → held = [op]

/-- C8.  The bulk-drop sweep of init holds the guard exclusively while
create, clean and drop hold it shared; consequently, in any admissible set of
simultaneous holders that contains the sweep, every holder is the sweep, so
no per-database operation interleaves with an in-progress sweep. -/
theorem concurrency_guard_modes :
    guardMode .init = .exclusive ∧
    guardMode .create = .shared ∧
    guardMode .clean = .shared ∧
    guardMode .drop = .shared ∧
    ∀ held, rwCompatible held → BackendOp.init ∈ held →
      ∀ op ∈ held, op = BackendOp.init := by
  refine ⟨rfl, rfl, rfl, rfl, fun held hcomp hmem op hop => ?_⟩
  have h := hcomp BackendOp.init hmem rfl
  rw [h] at hop
  simpa using hop

theorem concurrency_guard_modes_witness :
    ∀ op ∈ [BackendOp.init], op = BackendOp.init :=
  concurrency_guard_modes.2.2.2.2 [BackendOp.init]
    (fun op hop _ => by
      simp only [List.mem_singleton] at hop
      rw [hop])
    (by simp)

end DbPool
